import Mathlib

/-!
Verification of the orbital propagation core of the Satellite Tracking API
(`src/app.py`).  The two routines with numerical content,
`predict_satellite_position` (lines 78-211) and `track_over_time`
(lines 214-307), are embedded shallowly over the exact reals: numpy vector
operations become componentwise operations on `Vec3`, `np.linalg.norm` is
`Real.sqrt` of the sum of squares, and the bounded Newton-Raphson loop is a
fuel-indexed recursion.  Epochs are modelled as integer second counts; the
source consumes them only through the elapsed-seconds difference
`(final_time - initial_time).total_seconds()`, and the `strftime`/`strptime`
round trip in the track driver is exact at one-second resolution.
-/

namespace SatTrack

noncomputable section

/-- A 3-vector of reals, the model of a numpy length-3 float array. -/
@[ext]
structure Vec3 where
  x : ℝ
  y : ℝ
  z : ℝ

/-- Componentwise vector addition. -/
def vadd (u v : Vec3) : Vec3 := ⟨u.x + v.x, u.y + v.y, u.z + v.z⟩

/-- Componentwise vector subtraction. -/
def vsub (u v : Vec3) : Vec3 := ⟨u.x - v.x, u.y - v.y, u.z - v.z⟩

/-- Scalar times vector, the model of numpy broadcasting `c * v`. -/
def vsmul (c : ℝ) (v : Vec3) : Vec3 := ⟨c * v.x, c * v.y, c * v.z⟩

/-- Vector divided by a scalar, the model of numpy broadcasting `v / c`. -/
def vdiv (v : Vec3) (c : ℝ) : Vec3 := ⟨v.x / c, v.y / c, v.z / c⟩

/-- Dot product, the model of `np.dot`. -/
def dot (u v : Vec3) : ℝ := u.x * v.x + u.y * v.y + u.z * v.z

/-- Cross product, the model of `np.cross`. -/
def cross (u v : Vec3) : Vec3 :=
  ⟨u.y * v.z - u.z * v.y, u.z * v.x - u.x * v.z, u.x * v.y - u.y * v.x⟩

/-- Euclidean norm, the model of `np.linalg.norm`. -/
def norm3 (v : Vec3) : ℝ := Real.sqrt (dot v v)

/-- Standard gravitational parameter for Earth, `mu = 3.986004418e14` (line 111). -/
def muE : ℝ := 3.986004418e14

/-- J2 zonal harmonic coefficient, `J2 = 1.08263e-3` (line 196). -/
def J2E : ℝ := 1.08263e-3

/-- Angular momentum vector `h = np.cross(initial_position, velocity)` (line 108). -/
def hVec (r0 v0 : Vec3) : Vec3 := cross r0 v0

/-- Eccentricity vector `e_vec = np.cross(velocity, h) / mu - initial_position / r`
(line 114), with `r = np.linalg.norm(initial_position)`. -/
def eVec (r0 v0 : Vec3) : Vec3 :=
  vsub (vdiv (cross v0 (hVec r0 v0)) muE) (vdiv r0 (norm3 r0))

/-- Eccentricity magnitude `e = np.linalg.norm(e_vec)` followed by the
near-parabolic clamp `if abs(e - 1.0) < 1e-10: e = 0.999999` (lines 115-119). -/
def eScalar (r0 v0 : Vec3) : ℝ :=
  if |norm3 (eVec r0 v0) - 1.0| < 1e-10 then 0.999999 else norm3 (eVec r0 v0)

/-- Semi-major axis
`a = r / (1 - e * np.dot(e_vec, initial_position) / (e * r))` (line 122). -/
def semiMajor (r0 v0 : Vec3) : ℝ :=
  norm3 r0 /
    (1 - eScalar r0 v0 * dot (eVec r0 v0) r0 / (eScalar r0 v0 * norm3 r0))

/-- Mean motion `n = np.sqrt(mu / (a ** 3))` (line 130). -/
def meanMotion (r0 v0 : Vec3) : ℝ := Real.sqrt (muE / (semiMajor r0 v0) ^ 3)

/-- Mean anomaly `M = n * time_difference` (line 131). -/
def meanAnomaly (dt : ℝ) (r0 v0 : Vec3) : ℝ := meanMotion r0 v0 * dt

/-- Newton-Raphson residual quotient
`delta = (E - e * np.sin(E) - M) / (1 - e * np.cos(E))` (lines 139 and 147). -/
def keplerDelta (e M E : ℝ) : ℝ :=
  (E - e * Real.sin E - M) / (1 - e * Real.cos E)

/-- One Newton-Raphson update `E = E - delta` (lines 140 and 148). -/
def newtonStep (e M E : ℝ) : ℝ := E - keplerDelta e M E

/-- The bounded Newton-Raphson loop of lines 138-142 (identical to the copy at
lines 146-150): up to the given fuel many iterations, each computing `delta`,
updating `E = E - delta`, and breaking once `abs(delta) < 1e-10`. -/
def keplerLoop (e M : ℝ) : ℝ → ℕ → ℝ
  | E, 0 => E
  | E, n + 1 =>
    let delta := keplerDelta e M E
    let E2 := E - delta
    if |delta| < 1e-10 then E2 else keplerLoop e M E2 n

/-- Eccentric anomaly as computed in lines 135-150: the initial guess is `M`
for `e < 0.8` and `pi if M > pi else M` otherwise, then 20 iterations of the
same Newton-Raphson loop. -/
def keplerE (e M : ℝ) : ℝ :=
  if e < 0.8 then keplerLoop e M M 20
  else keplerLoop e M (if M > Real.pi then Real.pi else M) 20

/-- True-anomaly cosine `cos_nu = (cos_E - e) / (1 - e * cos_E)` (line 155). -/
def cosNu (e E : ℝ) : ℝ := (Real.cos E - e) / (1 - e * Real.cos E)

/-- True-anomaly sine
`sin_nu = (np.sqrt(1 - e*e) * sin_E) / (1 - e * cos_E)` (line 156). -/
def sinNu (e E : ℝ) : ℝ :=
  (Real.sqrt (1 - e * e) * Real.sin E) / (1 - e * Real.cos E)

/-- Four-quadrant arctangent with numpy `np.arctan2` semantics; it only feeds
the unused binding `nu = np.arctan2(sin_nu, cos_nu)` (line 157). -/
def arctan2 (y x : ℝ) : ℝ :=
  if 0 < x then Real.arctan (y / x)
  else if x < 0 then
    (if 0 ≤ y then Real.arctan (y / x) + Real.pi else Real.arctan (y / x) - Real.pi)
  else if 0 < y then Real.pi / 2
  else if y < 0 then -(Real.pi / 2)
  else 0

/-- New radius `r_new = a * (1 - e * cos_E)` (line 160). -/
def rNew (a e E : ℝ) : ℝ := a * (1 - e * Real.cos E)

/-- Angular-momentum unit vector `h_unit = h / h_mag` (line 173), with
`h_mag = np.linalg.norm(h)` (line 166). -/
def hUnit (r0 v0 : Vec3) : Vec3 := vdiv (hVec r0 v0) (norm3 (hVec r0 v0))

/-- Raw node vector `np.cross([0, 0, 1], h_unit)` (line 175). -/
def nodeVec (hu : Vec3) : Vec3 := cross ⟨0, 0, 1⟩ hu

/-- Node unit vector: defaults to `[1, 0, 0]` when the node magnitude is below
`1e-10` (equatorial orbit), else normalizes (lines 176-182). -/
def nUnit (hu : Vec3) : Vec3 :=
  if norm3 (nodeVec hu) < 1e-10 then ⟨1, 0, 0⟩
  else vdiv (nodeVec hu) (norm3 (nodeVec hu))

/-- Triad completion `m_unit = np.cross(h_unit, n_unit)` (line 185). -/
def mUnit (hu : Vec3) : Vec3 := cross hu (nUnit hu)

/-- J2 perturbation vector of lines 199-202, componentwise
`-1.5 * J2 * (mu/r_new**2) * (a_earth/r_new)**2 * (1 - 5*(pos_vec[2]/r_new)**2) * pos_vec[i]/r_new`
for x and y, with factor `(3 - 5*(pos_vec[2]/r_new)**2)` for z. -/
def perturbVec (a_earth r_new : ℝ) (pos_vec : Vec3) : Vec3 :=
  ⟨-1.5 * J2E * (muE / r_new ^ 2) * (a_earth / r_new) ^ 2 *
      (1 - 5 * (pos_vec.z / r_new) ^ 2) * pos_vec.x / r_new,
    -1.5 * J2E * (muE / r_new ^ 2) * (a_earth / r_new) ^ 2 *
      (1 - 5 * (pos_vec.z / r_new) ^ 2) * pos_vec.y / r_new,
    -1.5 * J2E * (muE / r_new ^ 2) * (a_earth / r_new) ^ 2 *
      (3 - 5 * (pos_vec.z / r_new) ^ 2) * pos_vec.z / r_new⟩

/-- The core propagator `predict_satellite_position` (lines 78-211), shallowly
embedded: `dt` is the elapsed-seconds difference computed from the two time
strings at line 97.  Control flow and formulas follow the source line by line;
the bindings `r`, `v`, `e_vec`, `nu`, `p`, `e_unit` and `f` are computed and
never consumed, exactly as in the source. -/
def predict_satellite_position (dt : ℝ) (initial_position velocity : Vec3)
    (a_earth b_earth : ℝ) : Vec3 :=
  let r := norm3 initial_position
  let v := norm3 velocity
  let h := hVec initial_position velocity
  let e_vec := eVec initial_position velocity
  let e := eScalar initial_position velocity
  let a := semiMajor initial_position velocity
  if a ≤ 0 then vadd initial_position (vsmul dt velocity)
  else
    let M := meanAnomaly dt initial_position velocity
    let E := keplerE e M
    let cos_nu := cosNu e E
    let sin_nu := sinNu e E
    let nu := arctan2 sin_nu cos_nu
    let r_new := rNew a e E
    let p := a * (1 - e * e)
    let h_mag := norm3 h
    if h_mag < 1e-10 then vadd initial_position (vsmul dt velocity)
    else
      let h_unit := hUnit initial_position velocity
      let e_unit := vdiv e_vec (max (norm3 e_vec) 1e-10)
      let n_unit := nUnit h_unit
      let m_unit := mUnit h_unit
      let x_orb := r_new * cos_nu
      let y_orb := r_new * sin_nu
      let pos_vec := vadd (vsmul x_orb n_unit) (vsmul y_orb m_unit)
      let f := (a_earth - b_earth) / a_earth
      let perturbation := perturbVec a_earth r_new pos_vec
      if |dt| > 30 * 24 * 3600 then vadd initial_position (vsmul dt velocity)
      else vadd pos_vec (vsmul (0.5 * dt ^ 2) perturbation)

/-- Eccentric anomaly along the elliptical path of `predict_satellite_position`. -/
def keplerEEll (dt : ℝ) (r0 v0 : Vec3) : ℝ :=
  keplerE (eScalar r0 v0) (meanAnomaly dt r0 v0)

/-- New radius along the elliptical path of `predict_satellite_position`. -/
def rNewEll (dt : ℝ) (r0 v0 : Vec3) : ℝ :=
  rNew (semiMajor r0 v0) (eScalar r0 v0) (keplerEEll dt r0 v0)

/-- Kepler-derived inertial position `pos_vec = x_orb * n_unit + y_orb * m_unit`
(lines 188-192) along the elliptical path of `predict_satellite_position`. -/
def posVecEll (dt : ℝ) (r0 v0 : Vec3) : Vec3 :=
  vadd
    (vsmul (rNewEll dt r0 v0 * cosNu (eScalar r0 v0) (keplerEEll dt r0 v0))
      (nUnit (hUnit r0 v0)))
    (vsmul (rNewEll dt r0 v0 * sinNu (eScalar r0 v0) (keplerEEll dt r0 v0))
      (mUnit (hUnit r0 v0)))

/-- One sample of a track: an epoch (in integer seconds) and a position. -/
structure TrackPoint where
  time_utc : ℤ
  position : Vec3

/-- The model of Python `range(a, b, s)` for a positive step: the arithmetic
progression `a, a + s, ...` strictly below `b`. -/
def pyRange (a b s : ℕ) : List ℕ :=
  (List.range ((b - a + s - 1) / s)).map (fun j => a + j * s)

/-- The track driver `track_over_time` (lines 214-307), shallowly embedded:
the initial state is appended verbatim as the first point (lines 263-270),
then for each `i` in `range(interval_hours, int(duration_days * 24),
interval_hours)` the position at `initial_time + timedelta(hours=i)` is
obtained by an independent call to `predict_satellite_position` from the
original initial state (lines 273-295); the elapsed time seen by that call is
`i * 3600` seconds. -/
def track_over_time (t0 : ℤ) (initial_position velocity : Vec3)
    (duration_days interval_hours : ℕ) (a_earth b_earth : ℝ) : List TrackPoint :=
  ⟨t0, initial_position⟩ ::
    (pyRange interval_hours (duration_days * 24) interval_hours).map
      (fun (i : ℕ) =>
        ⟨t0 + (i : ℤ) * 3600,
          predict_satellite_position ((i : ℝ) * 3600) initial_position velocity
            a_earth b_earth⟩)

/-! ### General lemmas about the embedded definitions -/

theorem eScalar_ne_one (r0 v0 : Vec3) : eScalar r0 v0 ≠ 1 := by
  unfold eScalar
  split
  · norm_num
  · rename_i hcl
    intro he
    rw [he] at hcl
    norm_num at hcl

theorem keplerDelta_zero_zero (e : ℝ) : keplerDelta e 0 0 = 0 := by
  simp [keplerDelta]

theorem keplerLoop_zero_zero (e : ℝ) : ∀ n : ℕ, keplerLoop e 0 0 n = 0 := by
  intro n
  cases n with
  | zero => rfl
  | succ m =>
    simp only [keplerLoop, keplerDelta_zero_zero]
    norm_num

theorem keplerE_M_zero (e : ℝ) : keplerE e 0 = 0 := by
  unfold keplerE
  split
  · exact keplerLoop_zero_zero e 20
  · rw [if_neg (by exact not_lt.mpr (le_of_lt Real.pi_pos)), keplerLoop_zero_zero]

theorem cosNu_E_zero (e : ℝ) (he : e ≠ 1) : cosNu e 0 = 1 := by
  rw [cosNu, Real.cos_zero, mul_one]
  exact div_self (sub_ne_zero.mpr (Ne.symm he))

theorem sinNu_E_zero (e : ℝ) : sinNu e 0 = 0 := by
  simp [sinNu]

theorem keplerLoop_succ (e M E : ℝ) (n : ℕ) :
    keplerLoop e M E (n + 1) =
      if |keplerDelta e M E| < 1e-10 then newtonStep e M E
      else keplerLoop e M (newtonStep e M E) n := by
  rfl

theorem keplerLoop_no_stop (e M : ℝ) :
    ∀ (n : ℕ) (E : ℝ),
      (∀ i, i < n → ¬ |keplerDelta e M ((newtonStep e M)^[i] E)| < 1e-10) →
      keplerLoop e M E n = (newtonStep e M)^[n] E := by
  intro n
  induction n with
  | zero => intro E _; rfl
  | succ m ih =>
    intro E hno
    have h0 : ¬ |keplerDelta e M E| < 1e-10 := by
      have := hno 0 (Nat.succ_pos m)
      simpa using this
    rw [keplerLoop_succ, if_neg h0, ih (newtonStep e M E) ?_,
      ← Function.iterate_succ_apply]
    intro i hi
    have := hno (i + 1) (Nat.succ_lt_succ hi)
    rwa [Function.iterate_succ_apply] at this

theorem keplerLoop_stop (e M : ℝ) :
    ∀ (n i : ℕ) (E : ℝ), i < n →
      |keplerDelta e M ((newtonStep e M)^[i] E)| < 1e-10 →
      (∀ j, j < i → ¬ |keplerDelta e M ((newtonStep e M)^[j] E)| < 1e-10) →
      keplerLoop e M E n = (newtonStep e M)^[i + 1] E := by
  intro n
  induction n with
  | zero => intro i E hi; exact absurd hi (Nat.not_lt_zero i)
  | succ m ih =>
    intro i E hi hstop hmin
    cases i with
    | zero =>
      simp only [Function.iterate_zero_apply] at hstop
      rw [keplerLoop_succ, if_pos hstop]
      simp [Function.iterate_one]
    | succ k =>
      have h0 : ¬ |keplerDelta e M E| < 1e-10 := by
        have := hmin 0 (Nat.succ_pos k)
        simpa using this
      rw [keplerLoop_succ, if_neg h0,
        ih k (newtonStep e M E) (Nat.lt_of_succ_lt_succ hi) ?_ ?_,
        ← Function.iterate_succ_apply]
      · rwa [← Function.iterate_succ_apply]
      · intro j hj
        have := hmin (j + 1) (Nat.succ_lt_succ hj)
        rwa [Function.iterate_succ_apply] at this

theorem keplerLoop_bounded (e M : ℝ) :
    ∀ (n : ℕ) (E : ℝ), ∃ k, k ≤ n ∧ keplerLoop e M E n = (newtonStep e M)^[k] E := by
  intro n
  induction n with
  | zero => intro E; exact ⟨0, le_refl 0, rfl⟩
  | succ m ih =>
    intro E
    by_cases h0 : |keplerDelta e M E| < 1e-10
    · refine ⟨1, Nat.succ_le_succ (Nat.zero_le m), ?_⟩
      rw [keplerLoop_succ, if_pos h0]
      simp [Function.iterate_one]
    · obtain ⟨k, hk, hval⟩ := ih (newtonStep e M E)
      refine ⟨k + 1, Nat.succ_le_succ hk, ?_⟩
      rw [keplerLoop_succ, if_neg h0, hval, ← Function.iterate_succ_apply]

/-- The elliptical main path: when none of the three fallbacks triggers, the
result is the Kepler-derived point plus the second-order J2 correction. -/
theorem predict_elliptical (dt : ℝ) (r0 v0 : Vec3) (ae be : ℝ)
    (ha : ¬ semiMajor r0 v0 ≤ 0) (hh : ¬ norm3 (hVec r0 v0) < 1e-10)
    (hdt : ¬ |dt| > 30 * 24 * 3600) :
    predict_satellite_position dt r0 v0 ae be =
      vadd (posVecEll dt r0 v0)
        (vsmul (0.5 * dt ^ 2)
          (perturbVec ae (rNewEll dt r0 v0) (posVecEll dt r0 v0))) := by
  simp only [predict_satellite_position]
  rw [if_neg ha, if_neg hh, if_neg hdt]
  simp only [posVecEll, rNewEll, keplerEEll]

/-- At zero elapsed time the elliptical path reduces to the periapsis-radius
point along the node direction: the Newton loop returns `E = 0` immediately,
so `cos_nu = 1`, `sin_nu = 0`, `r_new = a * (1 - e)`, and the J2 correction is
multiplied by `dt ** 2 = 0`. -/
theorem predict_dt_zero (r0 v0 : Vec3) (ae be : ℝ)
    (ha : 0 < semiMajor r0 v0) (hh : ¬ norm3 (hVec r0 v0) < 1e-10) :
    predict_satellite_position 0 r0 v0 ae be =
      vsmul (semiMajor r0 v0 * (1 - eScalar r0 v0)) (nUnit (hUnit r0 v0)) := by
  rw [predict_elliptical 0 r0 v0 ae be (not_le.mpr ha) hh (by norm_num)]
  have hM : meanAnomaly 0 r0 v0 = 0 := by simp [meanAnomaly]
  have hE : keplerEEll 0 r0 v0 = 0 := by rw [keplerEEll, hM, keplerE_M_zero]
  have hrn : rNewEll 0 r0 v0 = semiMajor r0 v0 * (1 - eScalar r0 v0) := by
    rw [rNewEll, hE, rNew, Real.cos_zero, mul_one]
  have hpos : posVecEll 0 r0 v0 =
      vsmul (semiMajor r0 v0 * (1 - eScalar r0 v0)) (nUnit (hUnit r0 v0)) := by
    rw [posVecEll, hE, cosNu_E_zero _ (eScalar_ne_one r0 v0), sinNu_E_zero, hrn]
    simp [vadd, vsmul]
  rw [hpos]
  ext <;> simp [vadd, vsmul]

/-! ### Concrete inputs and their evaluations

`exr0`/`exv0` is an exact elliptical state: with `|r0| = 1.5 * mu` and unit
speed, the eccentricity comes out to exactly `0.5` and the semi-major axis to
`2 * |r0|`, so every square root in the element derivation is a perfect
square.  `hyr0`/`hyv0` is the hyperbolic variant (`|r0| = 3 * mu`, `e = 2`,
`a = -|r0|`), and `dgr0`/`dgv0` is a collinear state with zero angular
momentum whose clamped eccentricity makes `a = 1/2 > 0`. -/

def exR : ℝ := 5.979006627e14

def exr0 : Vec3 := ⟨0, exR, 0⟩

def exv0 : Vec3 := ⟨-1, 0, 0⟩

def exRh : ℝ := 1.1958013254e15

def hyr0 : Vec3 := ⟨0, exRh, 0⟩

def hyv0 : Vec3 := ⟨-1, 0, 0⟩

def dgr0 : Vec3 := ⟨1, 0, 0⟩

def dgv0 : Vec3 := ⟨1, 0, 0⟩

theorem norm3_zero_vec : norm3 ⟨0, 0, 0⟩ = 0 := by
  simp [norm3, dot]

theorem norm3_y_axis (c : ℝ) (hc : 0 ≤ c) : norm3 ⟨0, c, 0⟩ = c := by
  have h : dot ⟨0, c, 0⟩ ⟨0, c, 0⟩ = c * c := by simp [dot]
  rw [norm3, h, Real.sqrt_mul_self hc]

theorem norm3_z_axis (c : ℝ) (hc : 0 ≤ c) : norm3 ⟨0, 0, c⟩ = c := by
  have h : dot ⟨0, 0, c⟩ ⟨0, 0, c⟩ = c * c := by simp [dot]
  rw [norm3, h, Real.sqrt_mul_self hc]

theorem hVec_plane (c : ℝ) : hVec ⟨0, c, 0⟩ ⟨-1, 0, 0⟩ = ⟨0, 0, c⟩ := by
  simp [hVec, cross]

theorem eVec_plane (c : ℝ) (hc : 0 < c) :
    eVec ⟨0, c, 0⟩ ⟨-1, 0, 0⟩ = ⟨0, c / muE - 1, 0⟩ := by
  rw [eVec, hVec_plane, norm3_y_axis c (le_of_lt hc)]
  ext <;> simp [cross, vdiv, vsub, div_self hc.ne']

theorem eVec_ex : eVec exr0 exv0 = ⟨0, 0.5, 0⟩ := by
  have h : eVec exr0 exv0 = ⟨0, exR / muE - 1, 0⟩ :=
    eVec_plane exR (by norm_num [exR])
  rw [h]
  ext <;> simp <;> norm_num [exR, muE]

theorem eScalar_ex : eScalar exr0 exv0 = 0.5 := by
  rw [eScalar, eVec_ex, norm3_y_axis (0.5 : ℝ) (by norm_num)]
  norm_num [abs_sub_comm, abs_of_nonneg]

theorem semiMajor_ex : semiMajor exr0 exv0 = 2 * exR := by
  have hd : dot (eVec exr0 exv0) exr0 = 0.5 * exR := by
    rw [eVec_ex]; simp [dot, exr0]
  rw [semiMajor, eScalar_ex, hd]
  show norm3 exr0 / _ = _
  rw [show (exr0 : Vec3) = ⟨0, exR, 0⟩ from rfl,
    norm3_y_axis exR (by norm_num [exR])]
  norm_num [exR]

theorem norm3_hVec_ex : norm3 (hVec exr0 exv0) = exR := by
  rw [show (exr0 : Vec3) = ⟨0, exR, 0⟩ from rfl,
    show (exv0 : Vec3) = ⟨-1, 0, 0⟩ from rfl, hVec_plane,
    norm3_z_axis exR (by norm_num [exR])]

theorem hUnit_ex : hUnit exr0 exv0 = ⟨0, 0, 1⟩ := by
  rw [hUnit, norm3_hVec_ex,
    show hVec exr0 exv0 = ⟨0, 0, exR⟩ from hVec_plane exR]
  ext <;> simp [vdiv] <;> norm_num [exR]

theorem nodeVec_polar : nodeVec ⟨0, 0, 1⟩ = ⟨0, 0, 0⟩ := by
  simp [nodeVec, cross]

theorem nUnit_polar : nUnit ⟨0, 0, 1⟩ = ⟨1, 0, 0⟩ := by
  rw [nUnit, nodeVec_polar, norm3_zero_vec, if_pos (by norm_num)]

theorem semiMajor_hy : semiMajor hyr0 hyv0 = -exRh := by
  have he : eVec hyr0 hyv0 = ⟨0, 2, 0⟩ := by
    have h : eVec hyr0 hyv0 = ⟨0, exRh / muE - 1, 0⟩ :=
      eVec_plane exRh (by norm_num [exRh])
    rw [h]
    ext <;> simp <;> norm_num [exRh, muE]
  have hes : eScalar hyr0 hyv0 = 2 := by
    rw [eScalar, he, norm3_y_axis (2 : ℝ) (by norm_num)]
    norm_num
  have hd : dot (eVec hyr0 hyv0) hyr0 = 2 * exRh := by
    rw [he]; simp [dot, hyr0]
  rw [semiMajor, hes, hd,
    show norm3 hyr0 = exRh from norm3_y_axis exRh (by norm_num [exRh])]
  norm_num [exRh]

theorem norm3_dg : norm3 dgr0 = 1 := by
  have h : dot dgr0 dgr0 = 1 := by simp [dot, dgr0]
  rw [norm3, h, Real.sqrt_one]

theorem hVec_dg : hVec dgr0 dgv0 = ⟨0, 0, 0⟩ := by
  simp [hVec, cross, dgr0, dgv0]

theorem eVec_dg : eVec dgr0 dgv0 = ⟨-1, 0, 0⟩ := by
  rw [eVec, hVec_dg, norm3_dg]
  ext <;> simp [cross, vdiv, vsub, dgr0, dgv0]

theorem eScalar_dg : eScalar dgr0 dgv0 = 0.999999 := by
  have h : norm3 (eVec dgr0 dgv0) = 1 := by
    have hd : dot (eVec dgr0 dgv0) (eVec dgr0 dgv0) = 1 := by
      rw [eVec_dg]; simp [dot]
    rw [norm3, hd, Real.sqrt_one]
  rw [eScalar, h]
  norm_num

theorem semiMajor_dg : semiMajor dgr0 dgv0 = 0.5 := by
  have hd : dot (eVec dgr0 dgv0) dgr0 = -1 := by
    rw [eVec_dg]; simp [dot, dgr0]
  rw [semiMajor, eScalar_dg, hd, norm3_dg]
  norm_num

/-! ### The claims -/

/-- C1, counterexample: the input `r0 = (0, 1.5 * mu, 0)`, `v0 = (-1, 0, 0)` is
a valid elliptical state (`e = 0.5`, `a = 2 * |r0| > 0`, `|h| = |r0|`), yet at
zero elapsed time `predict_satellite_position` returns `(1.5 * mu, 0, 0)` —
the periapsis-radius point along the defaulted node axis — and not the initial
position `(0, 1.5 * mu, 0)`. -/
theorem C1_counterexample :
    predict_satellite_position 0 exr0 exv0 6378137.0 6356752.3142 ≠ exr0 := by
  have ha : 0 < semiMajor exr0 exv0 := by rw [semiMajor_ex]; norm_num [exR]
  have hh : ¬ norm3 (hVec exr0 exv0) < 1e-10 := by
    rw [norm3_hVec_ex]; norm_num [exR]
  rw [predict_dt_zero exr0 exv0 6378137.0 6356752.3142 ha hh, semiMajor_ex,
    eScalar_ex, hUnit_ex, nUnit_polar]
  simp only [vsmul, exr0, ne_eq, Vec3.mk.injEq, not_and]
  intro hx
  norm_num [exR] at hx

/-- C1, amended: for `target_epoch == initial_epoch` (elapsed time `dt = 0`)
on the elliptical path (`a > 0`, `|h| >= 1e-10`), `predict` returns exactly
the Kepler-derived point `pos_vec` — the periapsis-radius point
`a * (1 - e)` along the node direction `n_unit`, with the J2 correction
contributing zero — which coincides with the initial position only when `r0`
happens to lie on that axis at that radius, not for every valid input. -/
theorem C1_zero_dt_kepler_point (r0 v0 : Vec3) (ae be : ℝ)
    (ha : 0 < semiMajor r0 v0) (hh : ¬ norm3 (hVec r0 v0) < 1e-10) :
    predict_satellite_position 0 r0 v0 ae be =
      vsmul (semiMajor r0 v0 * (1 - eScalar r0 v0)) (nUnit (hUnit r0 v0)) :=
  predict_dt_zero r0 v0 ae be ha hh

/-- Witness for C1 at the concrete elliptical input `exr0`/`exv0`. -/
theorem C1_zero_dt_kepler_point_witness :
    0 < semiMajor exr0 exv0 ∧ ¬ norm3 (hVec exr0 exv0) < 1e-10 ∧
      predict_satellite_position 0 exr0 exv0 6378137.0 6356752.3142 =
        vsmul (semiMajor exr0 exv0 * (1 - eScalar exr0 exv0))
          (nUnit (hUnit exr0 exv0)) := by
  have ha : 0 < semiMajor exr0 exv0 := by rw [semiMajor_ex]; norm_num [exR]
  have hh : ¬ norm3 (hVec exr0 exv0) < 1e-10 := by
    rw [norm3_hVec_ex]; norm_num [exR]
  exact ⟨ha, hh, C1_zero_dt_kepler_point exr0 exv0 6378137.0 6356752.3142 ha hh⟩

/-- C2: for every input whose derived semi-major axis satisfies `a <= 0`,
`predict_satellite_position` returns exactly `r0 + v0 * dt`, from the early
return at lines 125-127, before any Kepler solving. -/
theorem C2_hyperbolic_fallback (dt : ℝ) (r0 v0 : Vec3) (ae be : ℝ)
    (ha : semiMajor r0 v0 ≤ 0) :
    predict_satellite_position dt r0 v0 ae be = vadd r0 (vsmul dt v0) := by
  simp only [predict_satellite_position]
  rw [if_pos ha]

/-- Witness for C2 at the concrete hyperbolic input `hyr0`/`hyv0` (`e = 2`,
`a = -|r0| < 0`), with `dt = 5`. -/
theorem C2_hyperbolic_fallback_witness :
    semiMajor hyr0 hyv0 ≤ 0 ∧
      predict_satellite_position 5 hyr0 hyv0 6378137.0 6356752.3142 =
        vadd hyr0 (vsmul 5 hyv0) := by
  have ha : semiMajor hyr0 hyv0 ≤ 0 := by rw [semiMajor_hy]; norm_num [exRh]
  exact ⟨ha, C2_hyperbolic_fallback 5 hyr0 hyv0 6378137.0 6356752.3142 ha⟩

/-- C3: for every elliptical input (`a > 0`) with `|dt| > 30 * 86400` seconds,
`predict_satellite_position` returns exactly `r0 + v0 * dt`: the long-horizon
check at lines 204-206 overrides the perturbed Kepler result, and the
degenerate-angular-momentum branch returns the same rectilinear value, so the
override holds on every branch of the elliptical path. -/
theorem C3_long_horizon_override (dt : ℝ) (r0 v0 : Vec3) (ae be : ℝ)
    (ha : 0 < semiMajor r0 v0) (hdt : |dt| > 30 * 86400) :
    predict_satellite_position dt r0 v0 ae be = vadd r0 (vsmul dt v0) := by
  simp only [predict_satellite_position]
  rw [if_neg (not_le.mpr ha)]
  by_cases hh : norm3 (hVec r0 v0) < 1e-10
  · rw [if_pos hh]
  · rw [if_neg hh, if_pos (by rw [show (30 : ℝ) * 24 * 3600 = 30 * 86400 by norm_num]; exact hdt)]

/-- Witness for C3 at the concrete elliptical input `exr0`/`exv0` with
`dt = 2678400` seconds (31 days). -/
theorem C3_long_horizon_override_witness :
    0 < semiMajor exr0 exv0 ∧ |(2678400 : ℝ)| > 30 * 86400 ∧
      predict_satellite_position 2678400 exr0 exv0 6378137.0 6356752.3142 =
        vadd exr0 (vsmul 2678400 exv0) := by
  have ha : 0 < semiMajor exr0 exv0 := by rw [semiMajor_ex]; norm_num [exR]
  have hdt : |(2678400 : ℝ)| > 30 * 86400 := by
    rw [abs_of_nonneg (by norm_num)]; norm_num
  exact ⟨ha, hdt,
    C3_long_horizon_override 2678400 exr0 exv0 6378137.0 6356752.3142 ha hdt⟩

/-- C6: when no fallback triggers (`a > 0`, `|h| >= 1e-10`,
`|dt| <= 30 * 86400`), the returned position is
`pos_vec + 0.5 * perturbation * dt^2`, where each perturbation component
carries the factor `-1.5 * J2 * (mu / r_new^2) * (a_earth / r_new)^2` with
`J2 = 1.08263e-3`, the x and y components the factor
`(1 - 5 * (z / r_new)^2)` and the z component `(3 - 5 * (z / r_new)^2)`,
all evaluated at the Kepler-derived point `pos_vec`, not at `r0`. -/
theorem C6_j2_correction (dt : ℝ) (r0 v0 : Vec3) (ae be : ℝ)
    (ha : 0 < semiMajor r0 v0) (hh : ¬ norm3 (hVec r0 v0) < 1e-10)
    (hdt : |dt| ≤ 30 * 86400) :
    predict_satellite_position dt r0 v0 ae be =
      vadd (posVecEll dt r0 v0)
        (vsmul (0.5 * dt ^ 2)
          ⟨-1.5 * (1.08263e-3) * (muE / rNewEll dt r0 v0 ^ 2) *
              (ae / rNewEll dt r0 v0) ^ 2 *
              (1 - 5 * ((posVecEll dt r0 v0).z / rNewEll dt r0 v0) ^ 2) *
              (posVecEll dt r0 v0).x / rNewEll dt r0 v0,
            -1.5 * (1.08263e-3) * (muE / rNewEll dt r0 v0 ^ 2) *
              (ae / rNewEll dt r0 v0) ^ 2 *
              (1 - 5 * ((posVecEll dt r0 v0).z / rNewEll dt r0 v0) ^ 2) *
              (posVecEll dt r0 v0).y / rNewEll dt r0 v0,
            -1.5 * (1.08263e-3) * (muE / rNewEll dt r0 v0 ^ 2) *
              (ae / rNewEll dt r0 v0) ^ 2 *
              (3 - 5 * ((posVecEll dt r0 v0).z / rNewEll dt r0 v0) ^ 2) *
              (posVecEll dt r0 v0).z / rNewEll dt r0 v0⟩) := by
  rw [predict_elliptical dt r0 v0 ae be (not_le.mpr ha) hh
    (by rw [show (30 : ℝ) * 24 * 3600 = 30 * 86400 by norm_num]
        exact not_lt.mpr hdt)]
  rfl

/-- Witness for C6 at the concrete elliptical input `exr0`/`exv0`, `dt = 0`. -/
theorem C6_j2_correction_witness :
    0 < semiMajor exr0 exv0 ∧ ¬ norm3 (hVec exr0 exv0) < 1e-10 ∧
      |(0 : ℝ)| ≤ 30 * 86400 ∧
      predict_satellite_position 0 exr0 exv0 6378137.0 6356752.3142 =
        vadd (posVecEll 0 exr0 exv0)
          (vsmul (0.5 * (0 : ℝ) ^ 2)
            ⟨-1.5 * (1.08263e-3) * (muE / rNewEll 0 exr0 exv0 ^ 2) *
                (6378137.0 / rNewEll 0 exr0 exv0) ^ 2 *
                (1 - 5 * ((posVecEll 0 exr0 exv0).z / rNewEll 0 exr0 exv0) ^ 2) *
                (posVecEll 0 exr0 exv0).x / rNewEll 0 exr0 exv0,
              -1.5 * (1.08263e-3) * (muE / rNewEll 0 exr0 exv0 ^ 2) *
                (6378137.0 / rNewEll 0 exr0 exv0) ^ 2 *
                (1 - 5 * ((posVecEll 0 exr0 exv0).z / rNewEll 0 exr0 exv0) ^ 2) *
                (posVecEll 0 exr0 exv0).y / rNewEll 0 exr0 exv0,
              -1.5 * (1.08263e-3) * (muE / rNewEll 0 exr0 exv0 ^ 2) *
                (6378137.0 / rNewEll 0 exr0 exv0) ^ 2 *
                (3 - 5 * ((posVecEll 0 exr0 exv0).z / rNewEll 0 exr0 exv0) ^ 2) *
                (posVecEll 0 exr0 exv0).z / rNewEll 0 exr0 exv0⟩) := by
  have ha : 0 < semiMajor exr0 exv0 := by rw [semiMajor_ex]; norm_num [exR]
  have hh : ¬ norm3 (hVec exr0 exv0) < 1e-10 := by
    rw [norm3_hVec_ex]; norm_num [exR]
  have hdt : |(0 : ℝ)| ≤ 30 * 86400 := by norm_num
  exact ⟨ha, hh, hdt,
    C6_j2_correction 0 exr0 exv0 6378137.0 6356752.3142 ha hh hdt⟩

/-- C7: the returned position is independent of `b_earth` — the flattening
`f = (a_earth - b_earth) / a_earth` at line 195 is the only read of `b_earth`
and it is never consumed, so any two values of `b_earth` give equal results. -/
theorem C7_b_earth_noninterference (dt : ℝ) (r0 v0 : Vec3) (ae be1 be2 : ℝ) :
    predict_satellite_position dt r0 v0 ae be1 =
      predict_satellite_position dt r0 v0 ae be2 := rfl

/-- C8: whenever the node vector `cross (0,0,1) h_unit` has magnitude below
`1e-10`, the node unit vector defaults to `(1, 0, 0)` with no division by the
near-zero node magnitude, and the triad is completed as
`m_unit = cross h_unit (1, 0, 0)`. -/
theorem C8_equatorial_basis (hu : Vec3) (hnode : norm3 (nodeVec hu) < 1e-10) :
    nUnit hu = ⟨1, 0, 0⟩ ∧ mUnit hu = cross hu ⟨1, 0, 0⟩ := by
  have h1 : nUnit hu = ⟨1, 0, 0⟩ := by rw [nUnit, if_pos hnode]
  exact ⟨h1, by rw [mUnit, h1]⟩

/-- Witness for C8 at the polar-axis angular-momentum direction `(0, 0, 1)`. -/
theorem C8_equatorial_basis_witness :
    norm3 (nodeVec ⟨0, 0, 1⟩) < 1e-10 ∧ nUnit ⟨0, 0, 1⟩ = ⟨1, 0, 0⟩ ∧
      mUnit ⟨0, 0, 1⟩ = cross ⟨0, 0, 1⟩ ⟨1, 0, 0⟩ := by
  have hnode : norm3 (nodeVec ⟨0, 0, 1⟩) < 1e-10 := by
    rw [nodeVec_polar, norm3_zero_vec]; norm_num
  exact ⟨hnode, (C8_equatorial_basis ⟨0, 0, 1⟩ hnode).1,
    (C8_equatorial_basis ⟨0, 0, 1⟩ hnode).2⟩

/-- C10: the degenerate-angular-momentum check at lines 166-170 runs before
the basis construction, so for every elliptical input (`a > 0`) with
`|h| < 1e-10` the function returns exactly `r0 + v0 * dt` and the division
`h / h_mag` forming `h_unit` is never reached. -/
theorem C10_guarded_h_division (dt : ℝ) (r0 v0 : Vec3) (ae be : ℝ)
    (ha : 0 < semiMajor r0 v0) (hh : norm3 (hVec r0 v0) < 1e-10) :
    predict_satellite_position dt r0 v0 ae be = vadd r0 (vsmul dt v0) := by
  simp only [predict_satellite_position]
  rw [if_neg (not_le.mpr ha), if_pos hh]

/-- Witness for C10 at the collinear input `dgr0`/`dgv0` (`h = 0`, clamped
`e = 0.999999`, `a = 1/2 > 0`), with `dt = 2`. -/
theorem C10_guarded_h_division_witness :
    0 < semiMajor dgr0 dgv0 ∧ norm3 (hVec dgr0 dgv0) < 1e-10 ∧
      predict_satellite_position 2 dgr0 dgv0 6378137.0 6356752.3142 =
        vadd dgr0 (vsmul 2 dgv0) := by
  have ha : 0 < semiMajor dgr0 dgv0 := by rw [semiMajor_dg]; norm_num
  have hh : norm3 (hVec dgr0 dgv0) < 1e-10 := by
    rw [hVec_dg, norm3_zero_vec]; norm_num
  exact ⟨ha, hh, C10_guarded_h_division 2 dgr0 dgv0 6378137.0 6356752.3142 ha hh⟩

/-- C4: in the elliptical regime the eccentric anomaly comes from the bounded
Newton-Raphson solver: the initial guess is `M` when `e < 0.8` and otherwise
`pi` if `M > pi` else `M`; each iteration applies
`E <- E - (E - e sin E - M) / (1 - e cos E)`; the loop runs at most 20
iterations, stops with the `(i+1)`-fold iterate as soon as the `i`-th update
magnitude falls below `1e-10`, and otherwise unconditionally returns the
20-fold iterate — the last computed `E`, with no non-convergence signal. -/
theorem C4_kepler_solver :
    (∀ e M : ℝ, keplerE e M =
      keplerLoop e M (if e < 0.8 then M else if M > Real.pi then Real.pi else M) 20) ∧
    (∀ e M E : ℝ, newtonStep e M E =
      E - (E - e * Real.sin E - M) / (1 - e * Real.cos E)) ∧
    (∀ (e M E : ℝ) (n : ℕ),
      (∀ i, i < n → ¬ |keplerDelta e M ((newtonStep e M)^[i] E)| < 1e-10) →
      keplerLoop e M E n = (newtonStep e M)^[n] E) ∧
    (∀ (e M E : ℝ) (n i : ℕ), i < n →
      |keplerDelta e M ((newtonStep e M)^[i] E)| < 1e-10 →
      (∀ j, j < i → ¬ |keplerDelta e M ((newtonStep e M)^[j] E)| < 1e-10) →
      keplerLoop e M E n = (newtonStep e M)^[i + 1] E) := by
  refine ⟨?_, ?_, ?_, ?_⟩
  · intro e M
    by_cases h : e < 0.8
    · rw [keplerE, if_pos h, if_pos h]
    · rw [keplerE, if_neg h, if_neg h]
  · intro e M E; rfl
  · intro e M E n h
    exact keplerLoop_no_stop e M n E h
  · intro e M E n i hi hs hm
    exact keplerLoop_stop e M n i E hi hs hm

/-- Witness for C4: at `e = 0.5`, `M = 0` the very first update is zero, so
the loop stops immediately and the solver returns `0`. -/
theorem C4_kepler_solver_witness :
    |keplerDelta 0.5 0 ((newtonStep 0.5 0)^[0] 0)| < 1e-10 ∧ keplerE 0.5 0 = 0 := by
  have hd : keplerDelta 0.5 0 0 = 0 := keplerDelta_zero_zero 0.5
  have h0 : |keplerDelta 0.5 0 ((newtonStep 0.5 0)^[0] 0)| < 1e-10 := by
    simp only [Function.iterate_zero_apply]
    rw [hd]; norm_num
  obtain ⟨h1, _, _, h4⟩ := C4_kepler_solver
  refine ⟨h0, ?_⟩
  rw [h1 0.5 0, if_pos (by norm_num : (0.5 : ℝ) < 0.8),
    h4 0.5 0 0 20 0 (by norm_num) h0 (fun j hj => absurd hj (Nat.not_lt_zero j))]
  simp [newtonStep, hd]

/-- C9: for every numerically valid input with `|r0| > 0` the embedded
propagator is a total function — every degenerate condition resolves to a
returned vector, never an error — and the only iteration, the Newton-Raphson
loop, always terminates within its fixed 20-iteration budget. -/
theorem C9_no_throw_termination (dt : ℝ) (r0 v0 : Vec3) (ae be : ℝ)
    (hr : 0 < norm3 r0) :
    (∃ p : Vec3, predict_satellite_position dt r0 v0 ae be = p) ∧
    (∀ e M E : ℝ, ∃ k, k ≤ 20 ∧ keplerLoop e M E 20 = (newtonStep e M)^[k] E) := by
  refine ⟨⟨predict_satellite_position dt r0 v0 ae be, rfl⟩, ?_⟩
  intro e M E
  exact keplerLoop_bounded e M 20 E

/-- Witness for C9 at the concrete input `dgr0`/`dgv0`, `dt = 0`. -/
theorem C9_no_throw_termination_witness :
    0 < norm3 dgr0 ∧
      (∃ p : Vec3,
        predict_satellite_position 0 dgr0 dgv0 6378137.0 6356752.3142 = p) := by
  have hr : 0 < norm3 dgr0 := by rw [norm3_dg]; norm_num
  exact ⟨hr, (C9_no_throw_termination 0 dgr0 dgv0 6378137.0 6356752.3142 hr).1⟩

theorem pyRange_length (a b s : ℕ) :
    (pyRange a b s).length = (b - a + s - 1) / s := by
  simp [pyRange, List.length_map, List.length_range]

theorem pyRange_len_track (N ih : ℕ) (h : 0 < ih) :
    (N - ih + ih - 1) / ih = (N - 1) / ih := by
  by_cases hc : ih ≤ N
  · congr 1
    omega
  · have h1 : N - ih = 0 := by omega
    rw [h1, Nat.div_eq_of_lt (by omega), Nat.div_eq_of_lt (by omega)]

theorem card_filter_track (N ih : ℕ) (h : 0 < ih) :
    ((Finset.range N).filter (fun k => 1 ≤ k ∧ k * ih < N)).card = (N - 1) / ih := by
  have hset : (Finset.range N).filter (fun k => 1 ≤ k ∧ k * ih < N) =
      Finset.Icc 1 ((N - 1) / ih) := by
    ext k
    simp only [Finset.mem_filter, Finset.mem_range, Finset.mem_Icc]
    constructor
    · rintro ⟨hkN, hk1, hkih⟩
      exact ⟨hk1, (Nat.le_div_iff_mul_le h).mpr (by omega)⟩
    · rintro ⟨hk1, hkdiv⟩
      have hmul : k * ih ≤ N - 1 := (Nat.le_div_iff_mul_le h).mp hkdiv
      have hN1 : 1 ≤ N := by
        rcases Nat.eq_zero_or_pos N with h0 | h1
        · subst h0
          simp at hkdiv
          omega
        · exact h1
      have hk_le : k ≤ k * ih := Nat.le_mul_of_pos_right k h
      exact ⟨by omega, hk1, by omega⟩
  rw [hset, Nat.card_Icc, Nat.add_sub_cancel]

theorem track_length (t0 : ℤ) (r0 v0 : Vec3) (d ih : ℕ) (ae be : ℝ)
    (h : 0 < ih) :
    (track_over_time t0 r0 v0 d ih ae be).length = 1 + (d * 24 - 1) / ih := by
  rw [track_over_time, List.length_cons, List.length_map, pyRange,
    List.length_map, List.length_range, pyRange_len_track (d * 24) ih h]
  omega

/-- C5: for every track request, the first sample is the initial epoch and
position verbatim; the sample at index `k >= 1` (present exactly when
`k * interval_hours < duration_days * 24`) lies at
`epoch0 + k * interval_hours` and is an independent propagation of the
original initial state over `k * interval_hours * 3600` seconds; the total
count is `1 + |{k >= 1 : k * interval_hours < duration_days * 24}|`, and in
particular 14 samples for `duration_days = 7`, `interval_hours = 12`. -/
theorem C5_track_behaviour (t0 : ℤ) (r0 v0 : Vec3) (d ih : ℕ) (ae be : ℝ)
    (hih : 0 < ih) :
    (track_over_time t0 r0 v0 d ih ae be).head? = some ⟨t0, r0⟩ ∧
    (∀ k : ℕ, 1 ≤ k → k * ih < d * 24 →
      (track_over_time t0 r0 v0 d ih ae be)[k]? =
        some ⟨t0 + ((k * ih * 3600 : ℕ) : ℤ),
          predict_satellite_position ((k * ih * 3600 : ℕ) : ℝ) r0 v0 ae be⟩) ∧
    (track_over_time t0 r0 v0 d ih ae be).length =
      1 + ((Finset.range (d * 24)).filter (fun k => 1 ≤ k ∧ k * ih < d * 24)).card ∧
    (track_over_time t0 r0 v0 7 12 ae be).length = 14 := by
  refine ⟨rfl, ?_, ?_, ?_⟩
  · intro k hk1 hkN
    obtain ⟨j, rfl⟩ : ∃ j, k = j + 1 := ⟨k - 1, by omega⟩
    have hjlen : j < (d * 24 - ih + ih - 1) / ih := by
      rw [pyRange_len_track (d * 24) ih hih]
      have hle : j + 1 ≤ (d * 24 - 1) / ih :=
        (Nat.le_div_iff_mul_le hih).mpr (by omega)
      omega
    have hstep : (track_over_time t0 r0 v0 d ih ae be)[j + 1]? =
        some ⟨t0 + ((ih + j * ih : ℕ) : ℤ) * 3600,
          predict_satellite_position (((ih + j * ih : ℕ) : ℝ) * 3600) r0 v0 ae be⟩ := by
      rw [track_over_time, List.getElem?_cons_succ, pyRange, List.map_map,
        List.getElem?_map, List.getElem?_eq_getElem (by simpa using hjlen),
        List.getElem_range]
      rfl
    have ht : t0 + ((ih + j * ih : ℕ) : ℤ) * 3600 =
        t0 + (((j + 1) * ih * 3600 : ℕ) : ℤ) := by
      push_cast
      ring
    have harg : ((ih + j * ih : ℕ) : ℝ) * 3600 =
        (((j + 1) * ih * 3600 : ℕ) : ℝ) := by
      push_cast
      ring
    rw [hstep, ht, harg]
  · rw [track_length t0 r0 v0 d ih ae be hih, card_filter_track (d * 24) ih hih]
  · rw [track_length t0 r0 v0 7 12 ae be (by norm_num)]

/-- Witness for C5: a concrete 7-day, 12-hour track has exactly 14 samples. -/
theorem C5_track_behaviour_witness :
    0 < 12 ∧
      (track_over_time 0 ⟨0, 0, 0⟩ ⟨0, 0, 0⟩ 7 12 6378137.0 6356752.3142).length
        = 14 := by
  refine ⟨by norm_num, ?_⟩
  exact (C5_track_behaviour 0 ⟨0, 0, 0⟩ ⟨0, 0, 0⟩ 7 12 6378137.0 6356752.3142
    (by norm_num)).2.2.2

end

end SatTrack
